import Mathlib

/-!
# Verification of the box-game rollback simulation core

A shallow embedding of the simulation core of the box game
(`src/game.rs`), together with theorems settling the specified
properties.  Rust `f32` values are modelled as real numbers (the
algorithm's arithmetic, transcribed exactly; rounding of the binary32
format is abstracted away), `u8`/`u16`/`usize` as `ℕ`, `i32` frame
counters as `ℤ`, and the per-player `Vec`s as lists.  The byte-level
output of the external `bincode` crate is modelled as a canonical
field-order-faithful token stream composed with an arbitrary per-token
byte encoder.
-/

noncomputable section

/-! ## Constants (from `game.rs`) -/

def FPS : ℝ := 60.0

def CHECKSUM_PERIOD : ℤ := 100

def NULL_FRAME : ℤ := -1

def WINDOW_HEIGHT : ℝ := 800.0

def WINDOW_WIDTH : ℝ := 600.0

def INPUT_UP : ℕ := 1 <<< 0

def INPUT_DOWN : ℕ := 1 <<< 1

def INPUT_LEFT : ℕ := 1 <<< 2

def INPUT_RIGHT : ℕ := 1 <<< 3

def MOVEMENT_SPEED : ℝ := 15.0 / FPS

def ROTATION_SPEED : ℝ := 2.5 / FPS

def MAX_SPEED : ℝ := 7.0

def FRICTION : ℝ := 0.98

/-! ## Input model -/

/-- `PlayerInput`: a single-byte bitmask of pressed directions. -/
structure PlayerInput where
  buttons_pressed : ℕ
deriving DecidableEq

/-- The per-frame input vector handed to `advance` by the engine:
for each player handle, a disconnected flag and the raw recorded input.
The engine guarantees that both queries resolve for every active
handle (the Rust code `unwrap`s them), so they are modelled total. -/
structure GameInput where
  disconnected : ℕ → Bool
  inputs : ℕ → PlayerInput

/-- Effective input resolution inside `GameState::advance`:
a disconnected player's raw input is replaced by the fixed
turn-left-only mask. -/
def effectiveInput (inp : GameInput) (i : ℕ) : ℕ :=
  if inp.disconnected i then INPUT_LEFT else (inp.inputs i).buttons_pressed

/-! ## Simulation state -/

/-- `GameState`: frame counter, player count, and the three parallel
per-player sequences (field order as in the Rust struct, which fixes
the serialization order). -/
structure GameState where
  frame : ℤ
  num_players : ℕ
  positions : List (ℝ × ℝ)
  velocities : List (ℝ × ℝ)
  rotations : List ℝ

/-- `f32::rem_euclid`: the least non-negative representative
(for a positive modulus). -/
def remEuclid (x y : ℝ) : ℝ := x - y * ((⌊x / y⌋ : ℤ) : ℝ)

/-- Rust's `%` on floats: remainder rounding the quotient toward zero. -/
def rustRem (x y : ℝ) : ℝ :=
  x - y * (((if 0 ≤ x / y then ⌊x / y⌋ else ⌈x / y⌉) : ℤ) : ℝ)

/-- `GameState::new`: players placed symmetrically on a circle of radius
`WINDOW_WIDTH / 4`, facing inward, with zero velocity. -/
def GameState.new (num_players : ℕ) : GameState where
  frame := 0
  num_players := num_players
  positions := (List.range num_players).map (fun i =>
    (WINDOW_WIDTH / 2.0 +
       WINDOW_WIDTH / 4.0 * Real.cos ((i : ℝ) / (num_players : ℝ) * 2.0 * Real.pi),
     WINDOW_HEIGHT / 2.0 +
       WINDOW_WIDTH / 4.0 * Real.sin ((i : ℝ) / (num_players : ℝ) * 2.0 * Real.pi)))
  velocities := (List.range num_players).map (fun _ => (0.0, 0.0))
  rotations := (List.range num_players).map (fun i =>
    rustRem ((i : ℝ) / (num_players : ℝ) * 2.0 * Real.pi + Real.pi) (2.0 * Real.pi))

/-- The friction step of `advance`: both velocity components are
multiplied by the damping factor. -/
def frictionVel (v : ℝ × ℝ) : ℝ × ℝ := (v.1 * FRICTION, v.2 * FRICTION)

/-- The thrust/brake step of `advance`: forward thrust when up is
pressed without down, reverse thrust when down is pressed without up. -/
def thrustVel (input : ℕ) (rot : ℝ) (v : ℝ × ℝ) : ℝ × ℝ :=
  let v1 :=
    if input &&& INPUT_UP ≠ 0 ∧ input &&& INPUT_DOWN = 0 then
      (v.1 + MOVEMENT_SPEED * Real.cos rot, v.2 + MOVEMENT_SPEED * Real.sin rot)
    else v
  if input &&& INPUT_UP = 0 ∧ input &&& INPUT_DOWN ≠ 0 then
    (v1.1 - MOVEMENT_SPEED * Real.cos rot, v1.2 - MOVEMENT_SPEED * Real.sin rot)
  else v1

/-- The turning step of `advance`: heading decreases for left-only,
increases for right-only, each wrapped into `[0, 2π)`. -/
def turnRot (input : ℕ) (rot : ℝ) : ℝ :=
  let r1 :=
    if input &&& INPUT_LEFT ≠ 0 ∧ input &&& INPUT_RIGHT = 0 then
      remEuclid (rot - ROTATION_SPEED) (2.0 * Real.pi)
    else rot
  if input &&& INPUT_LEFT = 0 ∧ input &&& INPUT_RIGHT ≠ 0 then
    remEuclid (r1 + ROTATION_SPEED) (2.0 * Real.pi)
  else r1

/-- The magnitude computed in `advance`: `(vx*vx + vy*vy).sqrt()`. -/
def magnitude (v : ℝ × ℝ) : ℝ := Real.sqrt (v.1 * v.1 + v.2 * v.2)

/-- The speed-limiting step of `advance`: a uniform rescale to
`MAX_SPEED` when the magnitude exceeds it. -/
def limitSpeed (v : ℝ × ℝ) : ℝ × ℝ :=
  if MAX_SPEED < magnitude v then
    (v.1 * MAX_SPEED / magnitude v, v.2 * MAX_SPEED / magnitude v)
  else v

/-- The body of the per-player loop of `GameState::advance`:
friction, thrust, turn, speed cap, position update with per-axis
clamping to the arena; returns (position, velocity, rotation). -/
def stepPlayer (input : ℕ) (pos vel : ℝ × ℝ) (rot : ℝ) :
    (ℝ × ℝ) × (ℝ × ℝ) × ℝ :=
  let v2 := thrustVel input rot (frictionVel vel)
  let rot2 := turnRot input rot
  let v3 := limitSpeed v2
  ((min WINDOW_WIDTH (max 0 (pos.1 + v3.1)),
    min WINDOW_HEIGHT (max 0 (pos.2 + v3.2))),
   v3, rot2)

/-- One iteration of the player loop of `advance`, reading player `i`'s
stored position, velocity and rotation (the loop only touches index
`i`, so there is no cross-player dependency). -/
def stepAt (g : GameState) (inp : GameInput) (i : ℕ) :
    (ℝ × ℝ) × (ℝ × ℝ) × ℝ :=
  stepPlayer (effectiveInput inp i) (g.positions.getD i (0, 0))
    (g.velocities.getD i (0, 0)) (g.rotations.getD i 0)

/-- `GameState::advance`: increment the frame counter and update each
player `0 .. num_players` independently via `stepPlayer` applied to the
player's effective input.  Entries beyond `num_players` (absent in a
well-formed state) are kept, matching the in-place `Vec` updates. -/
def advance (g : GameState) (inp : GameInput) : GameState where
  frame := g.frame + 1
  num_players := g.num_players
  positions :=
    (List.range g.num_players).map (fun i => (stepAt g inp i).1)
    ++ g.positions.drop g.num_players
  velocities :=
    (List.range g.num_players).map (fun i => (stepAt g inp i).2.1)
    ++ g.velocities.drop g.num_players
  rotations :=
    (List.range g.num_players).map (fun i => (stepAt g inp i).2.2)
    ++ g.rotations.drop g.num_players

/-! ## Checksum subsystem -/

/-- `fletcher16`: the Fletcher-16 checksum exactly as in `game.rs`
(the `u16` arithmetic never overflows, so `ℕ` arithmetic is exact on
byte inputs). -/
def fletcher16 (data : List ℕ) : ℕ :=
  let p := data.foldl (fun p b =>
    let s1 := (p.1 + b) % 255
    ((s1, (p.2 + s1) % 255) : ℕ × ℕ)) ((0, 0) : ℕ × ℕ)
  (p.2 <<< 8) ||| p.1

/-- The accumulator recursion written the way the spec describes
Fletcher-16: per byte, `acc1 = (acc1 + byte) mod 255`,
`acc2 = (acc2 + acc1) mod 255`. -/
def fletcherAccum : ℕ → ℕ → List ℕ → ℕ × ℕ
  | a1, a2, [] => (a1, a2)
  | a1, a2, b :: rest =>
      fletcherAccum ((a1 + b) % 255) ((a2 + (a1 + b) % 255) % 255) rest

/-- The checksum as described by the spec's words:
run the accumulator fold, then return `(acc2 <<< 8) ||| acc1`. -/
def fletcher16Spec (data : List ℕ) : ℕ :=
  let p := fletcherAccum 0 0 data
  (p.2 <<< 8) ||| p.1

/-! ## Serialization -/

/-- One serialized field value: a 32-bit signed integer, a `usize`,
or a 32-bit float. -/
inductive SerToken where
  | int32 (n : ℤ)
  | usize (n : ℕ)
  | real32 (x : ℝ)

/-- Modelled from the spec: the "canonical serialized encoding of the
full SimulationState" produced by the external `bincode` crate, whose
byte-level encoder is not part of this repository.  Fields are emitted
in declaration order; each `Vec` as its length followed by its
elements. -/
def serialize (s : GameState) : List SerToken :=
  [SerToken.int32 s.frame, SerToken.usize s.num_players,
   SerToken.usize s.positions.length]
  ++ s.positions.flatMap (fun p => [SerToken.real32 p.1, SerToken.real32 p.2])
  ++ [SerToken.usize s.velocities.length]
  ++ s.velocities.flatMap (fun p => [SerToken.real32 p.1, SerToken.real32 p.2])
  ++ [SerToken.usize s.rotations.length]
  ++ s.rotations.map SerToken.real32

/-- The serialized bytes of a state, for a given per-token byte
encoder (the encoder stands for bincode's fixed byte layout). -/
def stateBytes (enc : SerToken → List ℕ) (s : GameState) : List ℕ :=
  (serialize s).flatMap enc

/-! ## Command dispatcher -/

/-- `Game`: the dispatcher state — player count, live simulation
state, and the two diagnostic checksum records. -/
structure Game where
  num_players : ℕ
  game_state : GameState
  last_checksum : ℤ × ℕ
  periodic_checksum : ℤ × ℕ

/-- `Game::new`: `assert!(num_players <= 4)` is modelled by returning
`none` (panic) when the bound fails; both checksum records start as
`(NULL_FRAME, 0)`. -/
def Game.new (num_players : ℕ) : Option Game :=
  if num_players ≤ 4 then
    some { num_players := num_players
           game_state := GameState.new num_players
           last_checksum := (NULL_FRAME, 0)
           periodic_checksum := (NULL_FRAME, 0) }
  else none

/-- The engine's command variants.  The `Event` payload is only
printed by the dispatcher, so it is not modelled. -/
inductive Command where
  | Save
  | Load (snapshot : GameState)
  | AdvanceFrame (inputs : GameInput)
  | Event

/-- Whether a command is an `AdvanceFrame`. -/
def Command.isAdvanceFrame : Command → Bool
  | .AdvanceFrame _ => true
  | _ => false

/-- `Game::advance_frame`: advance the simulation, serialize it,
checksum the bytes, record the last checksum every frame and the
periodic one every `CHECKSUM_PERIOD` frames. -/
def advanceFrame (enc : SerToken → List ℕ) (g : Game) (inputs : GameInput) :
    Game :=
  let gs := advance g.game_state inputs
  let checksum := fletcher16 (stateBytes enc gs)
  { g with
    game_state := gs
    last_checksum := (gs.frame, checksum)
    periodic_checksum :=
      if gs.frame % CHECKSUM_PERIOD = 0 then (gs.frame, checksum)
      else g.periodic_checksum }

/-- One iteration of the loop in `Game::handle_commands`.  `Save`
hands an independently-owned copy of the live state back to the engine
(returned in the second component); `Load` replaces the live state
wholesale; `Event` is only logged. -/
def handleCommand (enc : SerToken → List ℕ) (g : Game) :
    Command → Game × Option GameState
  | .Save => (g, some g.game_state)
  | .Load snapshot => ({ g with game_state := snapshot }, none)
  | .AdvanceFrame inputs => (advanceFrame enc g inputs, none)
  | .Event => (g, none)

/-- `Game::handle_commands`: fold the per-command dispatch over the
batch in order, collecting the snapshots handed back by `Save`. -/
def handleCommands (enc : SerToken → List ℕ) (g : Game) (cs : List Command) :
    Game × List GameState :=
  cs.foldl (fun acc c =>
    let r := handleCommand enc acc.1 c
    (r.1, acc.2 ++ r.2.toList)) (g, [])

/-! ## Local input sampling -/

/-- The keyboard keys read by `Game::local_input`. -/
inductive KeyCode where
  | W | A | S | D | Up | Left | Down | Right
deriving DecidableEq

/-- `Game::local_input`: handle 0 samples WASD, handle 1 samples the
arrow keys, every other handle yields the empty mask. -/
def local_input (isKeyDown : KeyCode → Bool) (handle : ℕ) : PlayerInput :=
  let b0 : ℕ := 0
  let b1 :=
    if handle = 0 then
      let b := if isKeyDown .W then b0 ||| INPUT_UP else b0
      let b := if isKeyDown .A then b ||| INPUT_LEFT else b
      let b := if isKeyDown .S then b ||| INPUT_DOWN else b
      if isKeyDown .D then b ||| INPUT_RIGHT else b
    else b0
  let b2 :=
    if handle = 1 then
      let b := if isKeyDown .Up then b1 ||| INPUT_UP else b1
      let b := if isKeyDown .Left then b ||| INPUT_LEFT else b
      let b := if isKeyDown .Down then b ||| INPUT_DOWN else b
      if isKeyDown .Right then b ||| INPUT_RIGHT else b
    else b1
  { buttons_pressed := b2 }

/-! ## Concrete values used by the witnesses -/

/-- A trivial byte encoder, standing in for bincode in closed
instantiations. -/
def zeroEnc : SerToken → List ℕ := fun _ => []

/-- An input vector with everyone connected and no buttons pressed. -/
def noInput : GameInput := ⟨fun _ => false, fun _ => ⟨0⟩⟩

/-- The dispatcher state `Game::new(1)` produces. -/
def game1 : Game :=
  ⟨1, GameState.new 1, (NULL_FRAME, 0), (NULL_FRAME, 0)⟩

/-- The dispatcher state `Game::new(2)` produces. -/
def game2 : Game :=
  ⟨2, GameState.new 2, (NULL_FRAME, 0), (NULL_FRAME, 0)⟩

/-! ## Helper lemmas -/

/-- The `foldl` in `fletcher16` agrees with the explicit accumulator
recursion, for any starting accumulators. -/
lemma fletcher_foldl_eq (data : List ℕ) : ∀ a1 a2 : ℕ,
    data.foldl (fun p b =>
      let s1 := (p.1 + b) % 255
      ((s1, (p.2 + s1) % 255) : ℕ × ℕ)) (a1, a2) = fletcherAccum a1 a2 data := by
  induction data with
  | nil => intro a1 a2; rfl
  | cons b rest ih =>
      intro a1 a2
      simp only [List.foldl_cons, fletcherAccum]
      exact ih _ _

/-- `advance` depends on the input vector only through the effective
input of each player. -/
lemma advance_input_congr (g : GameState) (inp₁ inp₂ : GameInput)
    (h : ∀ j, effectiveInput inp₁ j = effectiveInput inp₂ j) :
    advance g inp₁ = advance g inp₂ := by
  have hs : stepAt g inp₁ = stepAt g inp₂ := by
    funext j
    unfold stepAt
    rw [h j]
  unfold advance
  rw [hs]

/-- Per-axis clamping lands in `[0, W]`, and reaches the wall exactly
when driven past it. -/
lemma clamp_mem (W t : ℝ) (hW : 0 ≤ W) :
    0 ≤ min W (max 0 t) ∧ min W (max 0 t) ≤ W ∧
    (W < t → min W (max 0 t) = W) ∧ (t < 0 → min W (max 0 t) = 0) :=
  ⟨le_min hW (le_max_left _ _), min_le_left _ _,
   fun h => by rw [max_eq_right (le_of_lt (lt_of_le_of_lt hW h)), min_eq_left h.le],
   fun h => by rw [max_eq_left h.le, min_eq_right hW]⟩

lemma magnitude_nonneg (v : ℝ × ℝ) : 0 ≤ magnitude v := Real.sqrt_nonneg _

lemma magnitude_sq (v : ℝ × ℝ) :
    magnitude v * magnitude v = v.1 * v.1 + v.2 * v.2 :=
  Real.mul_self_sqrt (add_nonneg (mul_self_nonneg _) (mul_self_nonneg _))

/-- Below the cap, the speed limiter is the identity. -/
lemma limitSpeed_of_le (v : ℝ × ℝ) (h : magnitude v ≤ MAX_SPEED) :
    limitSpeed v = v :=
  if_neg (not_lt.2 h)

/-- Above the cap, the speed limiter rescales to magnitude exactly
`MAX_SPEED`, by a positive scalar (direction preserved). -/
lemma limitSpeed_of_gt (v : ℝ × ℝ) (h : MAX_SPEED < magnitude v) :
    magnitude (limitSpeed v) = MAX_SPEED ∧
    ∃ c : ℝ, 0 < c ∧ limitSpeed v = (c * v.1, c * v.2) := by
  have hM : (0 : ℝ) < MAX_SPEED := by norm_num [MAX_SPEED]
  have hm : 0 < magnitude v := hM.trans h
  have hsq := magnitude_sq v
  have hls : limitSpeed v =
      (v.1 * MAX_SPEED / magnitude v, v.2 * MAX_SPEED / magnitude v) := if_pos h
  constructor
  · rw [hls]
    have hsum : v.1 * MAX_SPEED / magnitude v * (v.1 * MAX_SPEED / magnitude v) +
        v.2 * MAX_SPEED / magnitude v * (v.2 * MAX_SPEED / magnitude v) =
        MAX_SPEED * MAX_SPEED := by
      field_simp
      linear_combination (-(MAX_SPEED * MAX_SPEED)) * hsq
    show Real.sqrt
        (v.1 * MAX_SPEED / magnitude v * (v.1 * MAX_SPEED / magnitude v) +
         v.2 * MAX_SPEED / magnitude v * (v.2 * MAX_SPEED / magnitude v)) = MAX_SPEED
    rw [hsum]
    exact Real.sqrt_mul_self hM.le
  · refine ⟨MAX_SPEED / magnitude v, div_pos hM hm, ?_⟩
    rw [hls, Prod.mk.injEq]
    constructor <;> ring

/-! ## Claims -/

/-- Claim C1: the step-advance operation is deterministic — two runs of
`advance` from equal states with equal input vectors (disconnected
flags included) produce equal next states, hence equal serialized
streams and, for any byte encoding of the stream, equal checksums. -/
theorem advance_deterministic (s₁ s₂ : GameState) (i₁ i₂ : GameInput)
    (hs : s₁ = s₂) (hi : i₁ = i₂) :
    advance s₁ i₁ = advance s₂ i₂ ∧
    serialize (advance s₁ i₁) = serialize (advance s₂ i₂) ∧
    ∀ enc : SerToken → List ℕ,
      fletcher16 (stateBytes enc (advance s₁ i₁)) =
        fletcher16 (stateBytes enc (advance s₂ i₂)) := by
  subst hs
  subst hi
  exact ⟨rfl, rfl, fun _ => rfl⟩

/-- Witness for C1 at a concrete state and input vector. -/
theorem advance_deterministic_witness :
    advance (GameState.new 2) noInput = advance (GameState.new 2) noInput ∧
    fletcher16 (stateBytes zeroEnc (advance (GameState.new 2) noInput)) =
      fletcher16 (stateBytes zeroEnc (advance (GameState.new 2) noInput)) :=
  ⟨(advance_deterministic (GameState.new 2) (GameState.new 2) noInput noInput
      rfl rfl).1,
   (advance_deterministic (GameState.new 2) (GameState.new 2) noInput noInput
      rfl rfl).2.2 zeroEnc⟩

/-- Claim C2: `fletcher16` implements Fletcher-16 — it equals the
accumulator fold the spec describes on every byte buffer, and maps `[]`
to `0` and `[1]` to `257`. -/
theorem fletcher16_correct :
    (∀ data : List ℕ, fletcher16 data = fletcher16Spec data) ∧
    fletcher16 [] = 0 ∧ fletcher16 [1] = 257 :=
  ⟨fun data => by
      simp only [fletcher16, fletcher16Spec, fletcher_foldl_eq],
   rfl, rfl⟩

/-- Claim C3: a `Save` command followed by a `Load` of the snapshot it
produced restores the dispatcher's live state to the state before the
save, serializing to the same stream. -/
theorem save_load_roundtrip (enc : SerToken → List ℕ) (g : Game)
    (s : GameState) (h : (handleCommand enc g .Save).2 = some s) :
    (handleCommand enc (handleCommand enc g .Save).1 (.Load s)).1.game_state =
      g.game_state ∧
    serialize
        ((handleCommand enc (handleCommand enc g .Save).1
          (.Load s)).1.game_state) =
      serialize g.game_state := by
  have hs : g.game_state = s := by
    simpa [handleCommand] using h
  subst hs
  exact ⟨rfl, rfl⟩

/-- Witness for C3 on the freshly constructed one-player game. -/
theorem save_load_roundtrip_witness :
    (handleCommand zeroEnc (handleCommand zeroEnc game1 .Save).1
        (.Load (GameState.new 1))).1.game_state = game1.game_state :=
  (save_load_roundtrip zeroEnc game1 (GameState.new 1) rfl).1

/-- Claim C4: a player the engine reports as disconnected gets exactly
the left-turn-only mask as effective input, and `advance` is unaffected
by whatever raw input is recorded for that player. -/
theorem disconnected_substitution (inp : GameInput) (i : ℕ)
    (h : inp.disconnected i = true) :
    effectiveInput inp i = INPUT_LEFT ∧
    ∀ (g : GameState) (b : PlayerInput),
      advance g ⟨inp.disconnected, fun j => if j = i then b else inp.inputs j⟩ =
        advance g inp := by
  refine ⟨by simp [effectiveInput, h], fun g b => ?_⟩
  refine advance_input_congr g _ inp (fun j => ?_)
  by_cases hj : j = i
  · subst hj
    simp [effectiveInput, h]
  · simp [effectiveInput, hj]

/-- Witness for C4: every player disconnected, raw inputs all `9`. -/
theorem disconnected_substitution_witness :
    effectiveInput ⟨fun _ => true, fun _ => ⟨9⟩⟩ 0 = INPUT_LEFT :=
  (disconnected_substitution ⟨fun _ => true, fun _ => ⟨9⟩⟩ 0 rfl).1

/-- Claim C10: `local_input` returns the all-zero mask for every handle
other than 0 and 1, regardless of which keys are pressed. -/
theorem local_input_remote_zero (ks : KeyCode → Bool) (hd : ℕ)
    (h0 : hd ≠ 0) (h1 : hd ≠ 1) :
    (local_input ks hd).buttons_pressed = 0 := by
  simp [local_input, h0, h1]

/-- Witness for C10: handle 2 with every key held down. -/
theorem local_input_remote_zero_witness :
    (local_input (fun _ => true) 2).buttons_pressed = 0 :=
  local_input_remote_zero (fun _ => true) 2 (by decide) (by decide)

/-- Claim C5: in every per-player step the stored velocity is the
speed-limited post-friction-and-thrust velocity `v`; when the magnitude
of `v` exceeds `MAX_SPEED`, it is rescaled by a positive scalar to
magnitude exactly `MAX_SPEED`; otherwise it is left unchanged; so the
stored magnitude never exceeds the cap. -/
theorem step_speed_cap (input : ℕ) (pos vel : ℝ × ℝ) (rot : ℝ) (v : ℝ × ℝ)
    (hv : v = thrustVel input rot (frictionVel vel)) :
    (stepPlayer input pos vel rot).2.1 = limitSpeed v ∧
    (MAX_SPEED < magnitude v →
      magnitude (limitSpeed v) = MAX_SPEED ∧
      ∃ c : ℝ, 0 < c ∧ limitSpeed v = (c * v.1, c * v.2)) ∧
    (magnitude v ≤ MAX_SPEED → limitSpeed v = v) ∧
    magnitude ((stepPlayer input pos vel rot).2.1) ≤ MAX_SPEED := by
  subst hv
  refine ⟨rfl, fun h => limitSpeed_of_gt _ h, fun h => limitSpeed_of_le _ h, ?_⟩
  show magnitude (limitSpeed (thrustVel input rot (frictionVel vel))) ≤ MAX_SPEED
  by_cases h : MAX_SPEED < magnitude (thrustVel input rot (frictionVel vel))
  · exact le_of_eq (limitSpeed_of_gt _ h).1
  · rw [limitSpeed_of_le _ (not_lt.1 h)]
    exact not_lt.1 h

/-- Witness for C5: a stationary-input step from velocity `(10, 0)`,
whose post-friction magnitude `9.8` exceeds the cap. -/
theorem step_speed_cap_witness :
    (stepPlayer 0 (0, 0) (10, 0) 0).2.1 =
      limitSpeed (thrustVel 0 0 (frictionVel (10, 0))) ∧
    magnitude ((stepPlayer 0 (0, 0) (10, 0) 0).2.1) ≤ MAX_SPEED :=
  ⟨(step_speed_cap 0 (0, 0) (10, 0) 0
      (thrustVel 0 0 (frictionVel (10, 0))) rfl).1,
   (step_speed_cap 0 (0, 0) (10, 0) 0
      (thrustVel 0 0 (frictionVel (10, 0))) rfl).2.2.2⟩

/-- Claim C6: in every per-player step the new position is the old
position plus the capped velocity `v`, with each axis independently
clamped into `[0, WINDOW_WIDTH]` resp. `[0, WINDOW_HEIGHT]`; positions
never leave the arena; a player driven past a wall lands exactly on the
wall; and the clamp leaves the stored velocity untouched. -/
theorem step_arena_clamp (input : ℕ) (pos vel : ℝ × ℝ) (rot : ℝ) (v : ℝ × ℝ)
    (hv : v = limitSpeed (thrustVel input rot (frictionVel vel))) :
    (stepPlayer input pos vel rot).1 =
      (min WINDOW_WIDTH (max 0 (pos.1 + v.1)),
       min WINDOW_HEIGHT (max 0 (pos.2 + v.2))) ∧
    (0 ≤ (stepPlayer input pos vel rot).1.1 ∧
      (stepPlayer input pos vel rot).1.1 ≤ WINDOW_WIDTH) ∧
    (0 ≤ (stepPlayer input pos vel rot).1.2 ∧
      (stepPlayer input pos vel rot).1.2 ≤ WINDOW_HEIGHT) ∧
    (WINDOW_WIDTH < pos.1 + v.1 →
      (stepPlayer input pos vel rot).1.1 = WINDOW_WIDTH) ∧
    (pos.1 + v.1 < 0 → (stepPlayer input pos vel rot).1.1 = 0) ∧
    (WINDOW_HEIGHT < pos.2 + v.2 →
      (stepPlayer input pos vel rot).1.2 = WINDOW_HEIGHT) ∧
    (pos.2 + v.2 < 0 → (stepPlayer input pos vel rot).1.2 = 0) ∧
    (stepPlayer input pos vel rot).2.1 = v := by
  subst hv
  have hW : (0 : ℝ) ≤ WINDOW_WIDTH := by norm_num [WINDOW_WIDTH]
  have hH : (0 : ℝ) ≤ WINDOW_HEIGHT := by norm_num [WINDOW_HEIGHT]
  have hx := clamp_mem WINDOW_WIDTH
    (pos.1 + (limitSpeed (thrustVel input rot (frictionVel vel))).1) hW
  have hy := clamp_mem WINDOW_HEIGHT
    (pos.2 + (limitSpeed (thrustVel input rot (frictionVel vel))).2) hH
  exact ⟨rfl, ⟨hx.1, hx.2.1⟩, ⟨hy.1, hy.2.1⟩, hx.2.2.1, hx.2.2.2,
    hy.2.2.1, hy.2.2.2, rfl⟩

/-- Witness for C6: a player starting on the right wall. -/
theorem step_arena_clamp_witness :
    0 ≤ (stepPlayer 0 (600, 400) (10, 0) 0).1.1 ∧
    (stepPlayer 0 (600, 400) (10, 0) 0).1.1 ≤ WINDOW_WIDTH :=
  (step_arena_clamp 0 (600, 400) (10, 0) 0
    (limitSpeed (thrustVel 0 0 (frictionVel (10, 0)))) rfl).2.1

/-- Claim C7: if the up and down bits of the effective input agree
(both set or both clear), the thrust rule adds nothing — the stored
velocity is just the friction-damped velocity after capping; if the
left and right bits agree, the heading is unchanged. -/
theorem neutral_input_no_change (input : ℕ) (pos vel : ℝ × ℝ) (rot : ℝ) :
    (((input &&& INPUT_UP ≠ 0) ↔ (input &&& INPUT_DOWN ≠ 0)) →
      thrustVel input rot (frictionVel vel) = frictionVel vel ∧
      (stepPlayer input pos vel rot).2.1 = limitSpeed (frictionVel vel)) ∧
    (((input &&& INPUT_LEFT ≠ 0) ↔ (input &&& INPUT_RIGHT ≠ 0)) →
      turnRot input rot = rot ∧ (stepPlayer input pos vel rot).2.2 = rot) := by
  constructor
  · intro h
    have h1 : ¬(input &&& INPUT_UP ≠ 0 ∧ input &&& INPUT_DOWN = 0) := by tauto
    have h2 : ¬(input &&& INPUT_UP = 0 ∧ input &&& INPUT_DOWN ≠ 0) := by tauto
    have ht : thrustVel input rot (frictionVel vel) = frictionVel vel := by
      simp only [thrustVel, if_neg h1, if_neg h2]
    refine ⟨ht, ?_⟩
    show limitSpeed (thrustVel input rot (frictionVel vel)) =
      limitSpeed (frictionVel vel)
    rw [ht]
  · intro h
    have h1 : ¬(input &&& INPUT_LEFT ≠ 0 ∧ input &&& INPUT_RIGHT = 0) := by tauto
    have h2 : ¬(input &&& INPUT_LEFT = 0 ∧ input &&& INPUT_RIGHT ≠ 0) := by tauto
    have ht : turnRot input rot = rot := by
      simp only [turnRot, if_neg h1, if_neg h2]
    exact ⟨ht, ht⟩

/-- Witness for C7 at mask 15 (all four directions held at once). -/
theorem neutral_input_no_change_witness :
    thrustVel 15 0 (frictionVel (1, 2)) = frictionVel (1, 2) ∧
    (stepPlayer 15 (3, 4) (1, 2) 0).2.2 = 0 :=
  ⟨((neutral_input_no_change 15 (3, 4) (1, 2) 0).1 (by decide)).1,
   ((neutral_input_no_change 15 (3, 4) (1, 2) 0).2 (by decide)).2⟩

/-- Counterexample for C8 as stated: `Game::new` only asserts
`num_players <= 4`, so a player count of `0` — outside the claimed
range `1 ≤ count ≤ 4` — is accepted rather than rejected. -/
theorem game_new_accepts_zero :
    (Game.new 0).isSome = true ∧ ¬(1 ≤ (0 : ℕ)) :=
  ⟨rfl, by decide⟩

/-- Claim C8 amended: construction rejects any player count greater
than 4 (only the upper bound is checked), every successfully
constructed game has `num_players` equal to the accepted count, hence
at most 4, and no dispatcher command ever changes it. -/
theorem game_new_player_bound (n : ℕ) (g : Game) (h : Game.new n = some g)
    (enc : SerToken → List ℕ) (c : Command) :
    n ≤ 4 ∧ g.num_players = n ∧ (∀ m : ℕ, 4 < m → Game.new m = none) ∧
    (handleCommand enc g c).1.num_players = g.num_players := by
  unfold Game.new at h
  split at h
  case isTrue hle =>
    cases h
    refine ⟨hle, rfl, fun m hm => ?_, ?_⟩
    · unfold Game.new
      rw [if_neg (by omega)]
    · cases c <;> rfl
  case isFalse => cases h

/-- Witness for C8 amended at player counts 2 and 5. -/
theorem game_new_player_bound_witness :
    2 ≤ 4 ∧ game2.num_players = 2 ∧ Game.new 5 = none :=
  ⟨(game_new_player_bound 2 game2 rfl zeroEnc .Save).1,
   (game_new_player_bound 2 game2 rfl zeroEnc .Save).2.1,
   (game_new_player_bound 2 game2 rfl zeroEnc .Save).2.2.1 5 (by norm_num)⟩

/-- Claim C9: a freshly constructed game has both checksum records
equal to the sentinel `(-1, 0)`, and `Save`, `Load` and `Event`
commands leave both records of any dispatcher state unchanged. -/
theorem fresh_checksum_records (n : ℕ) (g : Game) (h : Game.new n = some g)
    (enc : SerToken → List ℕ) (g' : Game) (c : Command)
    (hc : c.isAdvanceFrame = false) :
    g.last_checksum = ((-1 : ℤ), 0) ∧ g.periodic_checksum = ((-1 : ℤ), 0) ∧
    (handleCommand enc g' c).1.last_checksum = g'.last_checksum ∧
    (handleCommand enc g' c).1.periodic_checksum = g'.periodic_checksum := by
  unfold Game.new at h
  split at h
  case isTrue =>
    cases h
    refine ⟨rfl, rfl, ?_, ?_⟩ <;>
      cases c <;> simp_all [handleCommand, Command.isAdvanceFrame]
  case isFalse => cases h

/-- Witness for C9: the fresh one-player game and a `Save` command. -/
theorem fresh_checksum_records_witness :
    game1.last_checksum = ((-1 : ℤ), 0) ∧
    game1.periodic_checksum = ((-1 : ℤ), 0) ∧
    (handleCommand zeroEnc game2 .Save).1.last_checksum =
      game2.last_checksum :=
  ⟨(fresh_checksum_records 1 game1 rfl zeroEnc game2 .Save rfl).1,
   (fresh_checksum_records 1 game1 rfl zeroEnc game2 .Save rfl).2.1,
   (fresh_checksum_records 1 game1 rfl zeroEnc game2 .Save rfl).2.2.1⟩

end
